import Mathlib

/-!
Verification of the Hospital Strain Tracker dashboard core.

The development shallowly embeds the data-to-visualization pipeline of the
repository: the normalized snapshot rows, the ranking performed by
renderDashboard and downloadCSV (rows.slice().sort((a, b) => b.strain - a.strain)),
the severity and delta visual-encoding functions, the fail-soft fetch layer of
both front ends, the theme-recolor path of the chart renderer, and the CSV
export serializer.  Numbers are modelled as rationals: every numeric literal
appearing in the code and in the claims (80, 70, 80.01, 69.99, 3.25, ...) is a
rational, and the JavaScript comparisons used by the code are exact on them.
-/

namespace HospitalStrain

/-- A normalized snapshot row as produced by fetchMetrics in
frontend-vercel/app.js: region label, strain index and delta
(row.delta || 0, so a missing delta is 0). -/
structure Row where
  region : String
  strain : ℚ
  delta : ℚ
deriving DecidableEq

/-- The order underlying the comparator (a, b) => b.strain - a.strain of
renderDashboard and downloadCSV: a is placed no later than b exactly when
b.strain - a.strain <= 0, i.e. b.strain <= a.strain.  (For the rational
values modelled here the sign of the subtraction is the sign of the exact
difference.) -/
def rankLE (a b : Row) : Prop := b.strain ≤ a.strain

instance : DecidableRel rankLE := fun a b => inferInstanceAs (Decidable (b.strain ≤ a.strain))

instance : IsTotal Row rankLE := ⟨fun a b => le_total b.strain a.strain⟩

instance : IsTrans Row rankLE := ⟨fun _ _ _ h1 h2 => le_trans h2 h1⟩

/-- rows.slice().sort((a, b) => b.strain - a.strain): ECMAScript sort is
required to be stable, so the call computes the stable descending sort by
strain, embedded here as the stable insertion sort for rankLE. -/
def sortRows (rows : List Row) : List Row := List.insertionSort rankLE rows

/-- The label/class pair returned by strainBadge in app.js. -/
structure Badge where
  label : String
  cls : String
deriving DecidableEq

/-- strainBadge from app.js: CRISIS above 80 (strict), ELEVATED from 70
(inclusive) to 80, STABLE below 70. -/
def strainBadge (strain : ℚ) : Badge :=
  if 80 < strain then
    { label := "CRISIS", cls := "bg-rose-100 text-rose-700 dark:bg-rose-900/40 dark:text-rose-200" }
  else if 70 ≤ strain then
    { label := "ELEVATED", cls := "bg-orange-100 text-orange-700 dark:bg-orange-900/35 dark:text-orange-200" }
  else
    { label := "STABLE", cls := "bg-emerald-100 text-emerald-700 dark:bg-emerald-900/35 dark:text-emerald-200" }

/-- strainPill from app.js, the table pill class for a strain value. -/
def strainPill (strain : ℚ) : String :=
  if 80 < strain then "bg-rose-500/10 text-rose-700 dark:text-rose-200 border border-rose-500/20"
  else if 70 ≤ strain then "bg-orange-500/10 text-orange-700 dark:text-orange-200 border border-orange-500/20"
  else "bg-emerald-500/10 text-emerald-700 dark:text-emerald-200 border border-emerald-500/20"

/-- The per-bar color lambda inside buildBarColors in app.js. -/
def barColor (s : ℚ) : String :=
  if 80 < s then "rgba(244, 63, 94, 0.75)"
  else if 70 ≤ s then "rgba(249, 115, 22, 0.75)"
  else "rgba(16, 185, 129, 0.75)"

/-- buildBarColors from app.js: strains.map(s => ...). -/
def buildBarColors (strains : List ℚ) : List String := strains.map barColor

/-- getStrainColor from the React front end (src/unnamed/part_000). -/
def getStrainColor (strain : ℚ) : String :=
  if 80 < strain then "text-red-600"
  else if 70 ≤ strain then "text-orange-600"
  else "text-green-600"

/-- The sentinel sortedRows[0] falls back to in renderDashboard when the
snapshot is empty.  The JavaScript object literal carries only region and
strain; the unused delta field is 0 here. -/
def emptyHighest : Row := { region := "—", strain := 0, delta := 0 }

/-- Sum of the strain fields, as the reduce((s, r) => s + r.strain, 0) in
renderDashboard (and the analogous reduce in part_000). -/
def sumStrain (rows : List Row) : ℚ := rows.foldl (fun s r => s + r.strain) 0

/-- The derived view renderDashboard computes from the fetched rows: the
descending-sorted rows, the highest row (or the sentinel), the average
(guarded to 0 on an empty snapshot) and the strict crisis count. -/
structure RankedView where
  rows : List Row
  highest : Row
  average : ℚ
  crisisCount : ℕ
deriving DecidableEq

/-- The KPI derivation in renderDashboard (app.js lines 103-110). -/
def rankedView (rows : List Row) : RankedView :=
  let sorted := sortRows rows
  { rows := sorted
    highest := sorted.head?.getD emptyHighest
    average := if sorted.length ≠ 0 then sumStrain sorted / sorted.length else 0
    crisisCount := (sorted.filter fun r => 80 < r.strain).length }

/-- One step of the running-maximum reduce in part_000:
(max, row) => row.strain_index > max.strain_index ? row : max. -/
def maxStep (mx row : Row) : Row := if mx.strain < row.strain then row else mx

/-- highestStrain from part_000: data.rows.reduce(maxStep, data.rows[0]) when
rows are non-empty, null otherwise.  The reduce is seeded with rows[0] and
then visits every row, rows[0] included. -/
def highestStrainTS (rows : List Row) : Option Row :=
  match rows with
  | [] => none
  | r :: _ => some (rows.foldl maxStep r)

/-- averageStrain from part_000 before its toFixed(2) presentation step:
the arithmetic mean of the strain values, null when there are no rows. -/
def averageStrainTS (rows : List Row) : Option ℚ :=
  match rows with
  | [] => none
  | _ :: _ => some (sumStrain rows / rows.length)

/-- statesInCrisis from part_000: rows with strain strictly above 80. -/
def statesInCrisisTS (rows : List Row) : ℕ :=
  (rows.filter fun r => 80 < r.strain).length

/-- A raw row of the metrics payload: region, strain_index and an optional
delta, as in the JSON shape rows: [ \x7b region, strain_index, delta? \x7d ]. -/
structure RawRow where
  region : String
  strain_index : ℚ
  delta : Option ℚ
deriving DecidableEq

/-- The JSON body of a successful metrics response. -/
structure MetricsResponse where
  date : Option String
  rows : List RawRow
deriving DecidableEq

/-- The body of an HTTP response as seen by the two fetchers: either a body
from which no rows array can be extracted (invalid JSON, or JSON without a
rows field - both make app.js throw inside the try block), carrying the
engine-raised parse error message, or a well-formed metrics payload. -/
inductive Payload where
  | malformed (errMsg : String)
  | ok (resp : MetricsResponse)
deriving DecidableEq

/-- The outcome of the network call: a transport failure (fetch rejects,
carrying the engine-specific error message) or an HTTP response with a
status code and a body. -/
inductive FetchOutcome where
  | transportError (msg : String)
  | response (status : ℕ) (body : Payload)
deriving DecidableEq

/-- The normalization in app.js fetchMetrics:
row => (region: row.region, strain: row.strain_index, delta: row.delta || 0). -/
def normalizeRow (r : RawRow) : Row :=
  { region := r.region, strain := r.strain_index, delta := r.delta.getD 0 }

/-- fetchMetrics from app.js (lines 9-22): the HTTP status is never
inspected; any throw inside the try block (transport failure, body without
an extractable rows array) is caught, logged, and turned into [].  A
response whose body parses with a rows array yields the normalized rows
whatever the status code is. -/
def fetchMetricsJS : FetchOutcome → List Row
  | .transportError _ => []
  | .response _ (.malformed _) => []
  | .response _ (.ok resp) => resp.rows.map normalizeRow

/-- response.ok: status in the 2xx range. -/
def respOk (status : ℕ) : Bool := 200 ≤ status && status ≤ 299

/-- The component state part_000 fetchMetrics leaves behind: the data and
error React states after the call (loading is reset to false in finally). -/
structure AppFetchState where
  data : Option MetricsResponse
  error : Option String
  loading : Bool
deriving DecidableEq

/-- fetchMetrics from part_000 (lines 26-49): a non-ok response throws
Error("HTTP error! status: " + status); any caught error stores its message
in the error state and sets data to null; a parsed response is stored with
the error state cleared. -/
def fetchMetricsTS : FetchOutcome → AppFetchState
  | .transportError msg => { data := none, error := some msg, loading := false }
  | .response status body =>
    if respOk status then
      match body with
      | .malformed errMsg => { data := none, error := some errMsg, loading := false }
      | .ok resp => { data := some resp, error := none, loading := false }
    else
      { data := none, error := some ("HTTP error! status: " ++ toString status), loading := false }

/-- The error banner part_000 renders: Error: message whenever the error
state is set, nothing otherwise. -/
def errorBanner (st : AppFetchState) : Option String :=
  st.error.map fun m => "Error: " ++ m

/-- The three structural colors chartThemeColors in app.js derives from the
active theme. -/
structure ChartTheme where
  grid : String
  ticks : String
  border : String
deriving DecidableEq

/-- chartThemeColors from app.js. -/
def chartThemeColors (isDark : Bool) : ChartTheme :=
  { grid := if isDark then "rgba(148,163,184,0.14)" else "rgba(148,163,184,0.28)"
    ticks := if isDark then "rgba(226,232,240,0.85)" else "rgba(15,23,42,0.75)"
    border := if isDark then "rgba(148,163,184,0.22)" else "rgba(148,163,184,0.35)" }

/-- The observable state of the bar chart instance: category labels, data
values, per-bar severity backgrounds, dataset border color and the three
structural style colors refreshCharts touches. -/
structure BarChartState where
  labels : List String
  data : List ℚ
  backgroundColor : List String
  borderColor : String
  xTicksColor : String
  yTicksColor : String
  yGridColor : String
deriving DecidableEq

/-- The observable state of the line (trend) chart instance. -/
structure LineChartState where
  labels : List String
  data : List ℚ
  borderColor : String
  backgroundColor : String
  xTicksColor : String
  yTicksColor : String
  yGridColor : String
deriving DecidableEq

/-- The renderer-owned chart instances; none before the first rebuild
(barChartInstance and lineChartInstance start as null). -/
structure RendererState where
  bar : Option BarChartState
  line : Option LineChartState
deriving DecidableEq

/-- The bar-chart branch of refreshCharts: set both tick colors, the y grid
color and the dataset border color from the theme. -/
def refreshBar (t : ChartTheme) (c : BarChartState) : BarChartState :=
  { c with xTicksColor := t.ticks, yTicksColor := t.ticks, yGridColor := t.grid, borderColor := t.border }

/-- The line-chart branch of refreshCharts: set both tick colors and the y
grid color from the theme (the border color of the line dataset is not touched). -/
def refreshLine (t : ChartTheme) (c : LineChartState) : LineChartState :=
  { c with xTicksColor := t.ticks, yTicksColor := t.ticks, yGridColor := t.grid }

/-- refreshCharts from app.js (lines 289-308): returns immediately when no
chart instance exists; otherwise mutates the style fields of whichever
instances exist. -/
def refreshCharts (isDark : Bool) (st : RendererState) : RendererState :=
  if st.bar.isNone && st.line.isNone then st
  else
    let t := chartThemeColors isDark
    { bar := st.bar.map (refreshBar t), line := st.line.map (refreshLine t) }

/-- The effect of String(region).replace(/"/g, two quotes) in toCSV: every
double-quote character is replaced by two of them (a global single-character
regex replace, so the replacement is character by character). -/
def escapeChars : List Char → List Char
  | [] => []
  | c :: rest => if c = '"' then '"' :: '"' :: escapeChars rest else c :: escapeChars rest

/-- escapeChars lifted to strings. -/
def escapeQuotes (s : String) : String := ⟨escapeChars s.data⟩

/-- The inverse reading of a quote-escaped field: a doubled quote collapses
back to one character.  Used to state that the escaping loses nothing. -/
def unescapeChars : List Char → List Char
  | [] => []
  | [c] => [c]
  | c :: d :: rest =>
    if c = '"' ∧ d = '"' then '"' :: unescapeChars rest
    else c :: unescapeChars (d :: rest)

/-- JavaScript number-to-string as it occurs in the CSV lines: an integral
value renders with no decimal point or padding.  (Every numeric value the
CSV claims exercise is integral; non-integral rationals fall back to the
rational literal notation.) -/
def jsNumRepr (q : ℚ) : String := if q.den = 1 then toString q.num else toString q

/-- The quoted, escape-doubled region field safeRegion of toCSV. -/
def csvField (region : String) : String := "\"" ++ escapeQuotes region ++ "\""

/-- One data line of toCSV: [safeRegion, r.strain, r.delta].join(","). -/
def csvLine (r : Row) : String :=
  String.intercalate "," [csvField r.region, jsNumRepr r.strain, jsNumRepr r.delta]

/-- toCSV from app.js (lines 313-321): a header line, then one pushed line
per row in input order, joined with newlines. -/
def toCSV (rows : List Row) : String :=
  let header := ["Region", "Strain Index", "Delta Strain"]
  let lines := rows.foldl (fun acc r => acc ++ [csvLine r]) [String.intercalate "," header]
  String.intercalate "\n" lines

/-- Left-pads a digit string with zeros to the requested width. -/
def padZeros (width : ℕ) (s : String) : String :=
  ⟨List.replicate (width - s.length) '0'⟩ ++ s

/-- Number.prototype.toFixed(f) of ECMA-262 for an exactly-representable
value: the sign is extracted first, the magnitude is scaled by 10 to the f
and rounded to the nearest integer with ties taking the larger integer, and
the digits are split f places from the right. -/
def jsToFixed (f : ℕ) (q : ℚ) : String :=
  let s : String := if q < 0 then "-" else ""
  let x : ℚ := if q < 0 then -q else q
  let n : ℕ := (Int.floor (x * 10 ^ f + 1 / 2)).toNat
  let ip : ℕ := n / 10 ^ f
  let fp : ℕ := n % 10 ^ f
  s ++ toString ip ++ (if f = 0 then "" else "." ++ padZeros f (toString fp))

/-- The text/class pair deltaCell in app.js builds for a delta value. -/
structure DeltaCell where
  text : String
  cls : String
deriving DecidableEq

/-- deltaCell from app.js (lines 76-84): an explicit plus sign for strictly
positive deltas, one-decimal formatting, and rose/emerald/slate classes for
worsening/improving/neutral. -/
def deltaCell (delta : ℚ) : DeltaCell :=
  { text := (if 0 < delta then "+" else "") ++ jsToFixed 1 delta
    cls :=
      if 0 < delta then "text-rose-600 dark:text-rose-300"
      else if delta < 0 then "text-emerald-600 dark:text-emerald-300"
      else "text-slate-600 dark:text-slate-300" }

/-- formatDelta from part_000 (lines 70-74): a dash for a missing delta,
otherwise an explicit plus sign for strictly positive deltas and
two-decimal formatting. -/
def formatDelta (delta : Option ℚ) : String :=
  match delta with
  | none => "-"
  | some d => (if 0 < d then "+" else "") ++ jsToFixed 2 d

/-- A store of JavaScript arrays, for stating what the in-place sort does
and does not mutate.  References are indices into the list of live arrays. -/
structure Store where
  arrays : List (List Row)
deriving DecidableEq

/-- Reads the array a reference designates. -/
def Store.lookup (h : Store) (r : ℕ) : List Row := (h.arrays[r]?).getD []

/-- Allocates a fresh array holding v and returns its (fresh) reference. -/
def Store.alloc (h : Store) (v : List Row) : ℕ × Store :=
  (h.arrays.length, ⟨h.arrays ++ [v]⟩)

/-- Overwrites the array a reference designates. -/
def Store.update (h : Store) (r : ℕ) (v : List Row) : Store :=
  ⟨h.arrays.set r v⟩

/-- rows.slice(): allocates a fresh array with the same elements. -/
def jsSlice (h : Store) (r : ℕ) : ℕ × Store := h.alloc (h.lookup r)

/-- arr.sort((a, b) => b.strain - a.strain): sorts the designated array in
place, leaving every other array untouched. -/
def jsSortDescInPlace (h : Store) (r : ℕ) : Store :=
  h.update r (sortRows (h.lookup r))

/-- The ranking step rows.slice().sort((a, b) => b.strain - a.strain)
performed identically in renderDashboard and in downloadCSV: copy first,
then sort the copy in place.  Returns the reference to the sorted copy and
the resulting store. -/
def rankStep (h : Store) (rowsRef : ℕ) : ℕ × Store :=
  let res := jsSlice h rowsRef
  (res.fst, jsSortDescInPlace res.snd res.fst)

/-! Helper lemmas. -/

/-- Inserting a row into a list moves it only past rows of strictly larger
strain, so the sublist of rows carrying any fixed strain value gains the
inserted row at the front exactly when it carries that value. -/
lemma filterStrain_orderedInsert (v : ℚ) (x : Row) :
    ∀ l : List Row, (List.orderedInsert rankLE x l).filter (fun r => r.strain == v) =
      if x.strain = v then x :: l.filter (fun r => r.strain == v)
      else l.filter (fun r => r.strain == v) := by
  intro l
  induction l with
  | nil =>
    by_cases hx : x.strain = v
    · have hb : (x.strain == v) = true := beq_iff_eq.mpr hx
      simp [List.orderedInsert, List.filter, hx, hb]
    · have hb : (x.strain == v) = false := beq_eq_false_iff_ne.mpr hx
      simp [List.orderedInsert, List.filter, hx, hb]
  | cons b l ih =>
    by_cases hle : rankLE x b
    · rw [List.orderedInsert_of_le _ _ hle]
      by_cases hx : x.strain = v <;> simp [List.filter_cons, hx]
    · have hstep : List.orderedInsert rankLE x (b :: l) = b :: List.orderedInsert rankLE x l := by
        simp [List.orderedInsert, hle]
      rw [hstep]
      by_cases hx : x.strain = v
      · have hbv : ¬ (b.strain = v) := by
          intro hb
          exact hle (le_of_eq (hb.trans hx.symm))
        simp [List.filter_cons, hx, hbv, ih]
      · simp [List.filter_cons, hx, ih]

/-- The stable descending sort preserves, for every strain value, the exact
subsequence of rows carrying that value. -/
lemma filterStrain_sortRows (v : ℚ) : ∀ rows : List Row,
    (sortRows rows).filter (fun r => r.strain == v) = rows.filter (fun r => r.strain == v) := by
  intro rows
  induction rows with
  | nil => rfl
  | cons x l ih =>
    show (List.orderedInsert rankLE x (sortRows l)).filter _ = _
    rw [filterStrain_orderedInsert, ih]
    by_cases hx : x.strain = v <;> simp [List.filter_cons, hx]

/-- The running-maximum step keeps the earlier argument on ties and is
associative. -/
lemma maxStep_assoc (a b c : Row) : maxStep (maxStep a b) c = maxStep a (maxStep b c) := by
  unfold maxStep
  by_cases h1 : a.strain < b.strain <;> by_cases h2 : b.strain < c.strain
  · simp [h1, h2, lt_trans h1 h2]
  · simp [h1, h2]
  · simp [h1, h2]
  · have h3 : ¬ a.strain < c.strain := not_lt.mpr (le_trans (not_lt.mp h2) (not_lt.mp h1))
    simp [h1, h2, h3]

/-- Folding the running maximum commutes with a pending step. -/
lemma foldl_maxStep (ys : List Row) : ∀ x y : Row,
    ys.foldl maxStep (maxStep x y) = maxStep x (ys.foldl maxStep y) := by
  induction ys with
  | nil => intro x y; rfl
  | cons z zs ih =>
    intro x y
    simp only [List.foldl_cons]
    rw [maxStep_assoc]
    exact ih x (maxStep y z)

/-- The head of the stable descending sort of a non-empty list is the
left-fold of the running maximum, i.e. the first row attaining the maximal
strain. -/
lemma head_sortRows : ∀ (xs : List Row) (x : Row),
    (sortRows (x :: xs)).head? = some (xs.foldl maxStep x) := by
  intro xs
  induction xs with
  | nil => intro x; rfl
  | cons y ys ih =>
    intro x
    show (List.orderedInsert rankLE x (sortRows (y :: ys))).head? = _
    obtain ⟨b, t, hbt⟩ : ∃ b t, sortRows (y :: ys) = b :: t := by
      cases h : sortRows (y :: ys) with
      | nil =>
        exfalso
        have hlen : (sortRows (y :: ys)).length = ys.length + 1 := by
          simp [sortRows, List.orderedInsert_length, List.length_insertionSort]
        rw [h] at hlen
        simp at hlen
      | cons b t => exact ⟨b, t, rfl⟩
    have hb : b = ys.foldl maxStep y := by
      have hh := ih y
      rw [hbt] at hh
      have hh2 : b = ys.foldl maxStep y := by simpa using hh
      exact hh2
    have hRHS : (y :: ys).foldl maxStep x = maxStep x (ys.foldl maxStep y) := by
      simp only [List.foldl_cons]
      exact foldl_maxStep ys x y
    rw [hbt, hRHS, ← hb]
    by_cases hle : rankLE x b
    · rw [List.orderedInsert_of_le _ _ hle]
      have hxb : ¬ x.strain < b.strain := not_lt.mpr hle
      simp [maxStep, hxb]
    · have hstep : List.orderedInsert rankLE x (b :: t) = b :: List.orderedInsert rankLE x t := by
        simp [List.orderedInsert, hle]
      have hlt : x.strain < b.strain := not_le.mp hle
      rw [hstep]
      simp [maxStep, hlt]

/-- The strain sum is the sum of the mapped strain values. -/
lemma sumStrain_eq (l : List Row) : sumStrain l = (l.map Row.strain).sum := by
  have key : ∀ (l : List Row) (a : ℚ), l.foldl (fun s r => s + r.strain) a = a + (l.map Row.strain).sum := by
    intro l
    induction l with
    | nil => intro a; simp
    | cons x xs ih =>
      intro a
      simp [List.foldl_cons, ih, add_assoc]
  simpa using key l 0

/-- Sorting does not change the strain sum. -/
lemma sumStrain_sortRows (rows : List Row) : sumStrain (sortRows rows) = sumStrain rows := by
  rw [sumStrain_eq, sumStrain_eq]
  exact List.Perm.sum_eq ((List.perm_insertionSort rankLE rows).map Row.strain)

/-- Sorting does not change how many rows lie strictly above 80. -/
lemma crisis_sortRows (rows : List Row) :
    ((sortRows rows).filter fun r => 80 < r.strain).length =
      (rows.filter fun r => 80 < r.strain).length :=
  ((List.perm_insertionSort rankLE rows).filter _).length_eq

/-- Collapsing the doubled quotes recovers the original characters. -/
lemma unescape_escape : ∀ l : List Char, unescapeChars (escapeChars l) = l := by
  intro l
  induction l with
  | nil => rfl
  | cons c rest ih =>
    by_cases hc : c = '"'
    · subst hc
      have h1 : escapeChars ('"' :: rest) = '"' :: '"' :: escapeChars rest := by
        simp [escapeChars]
      have h2 : unescapeChars ('"' :: '"' :: escapeChars rest) = '"' :: unescapeChars (escapeChars rest) := by
        simp [unescapeChars]
      rw [h1, h2, ih]
    · have h1 : escapeChars (c :: rest) = c :: escapeChars rest := by
        simp [escapeChars, hc]
      rw [h1]
      cases hE : escapeChars rest with
      | nil =>
        rw [hE] at ih
        have hrest : rest = [] := by simpa [unescapeChars] using ih.symm
        simp [unescapeChars, hrest]
      | cons d X =>
        rw [hE] at ih
        have h2 : unescapeChars (c :: d :: X) = c :: unescapeChars (d :: X) := by
          simp [unescapeChars, hc]
        rw [h2, ih]

/-- The accumulator-push loop of toCSV builds the header followed by one
line per row, in input order. -/
lemma csv_foldl_push (rows : List Row) : ∀ init : List String,
    rows.foldl (fun acc r => acc ++ [csvLine r]) init = init ++ rows.map csvLine := by
  induction rows with
  | nil => intro init; simp
  | cons r rs ih =>
    intro init
    simp [List.foldl_cons, ih]

/-- Overwriting the freshly appended last slot leaves the prefix alone. -/
lemma set_concat (a b : List Row) : ∀ l : List (List Row),
    (l ++ [a]).set l.length b = l ++ [b] := by
  intro l
  induction l with
  | nil => rfl
  | cons x xs ih => simp [List.set, ih]

/-- The badge label is the three-way threshold classification. -/
lemma strainBadge_label (s : ℚ) : (strainBadge s).label =
    if 80 < s then "CRISIS" else if 70 ≤ s then "ELEVATED" else "STABLE" := by
  unfold strainBadge
  split_ifs <;> rfl

/-- Evaluation of the fixed-decimal rendering for a non-negative value in
terms of the rounded scaled integer. -/
lemma jsToFixed_eval (f : ℕ) (q : ℚ) (n : ℕ) (hq : ¬ q < 0)
    (hn : ⌊q * 10 ^ f + 1 / 2⌋ = (n : ℤ)) :
    jsToFixed f q = "" ++ toString (n / 10 ^ f) ++
      (if f = 0 then "" else "." ++ padZeros f (toString (n % 10 ^ f))) := by
  unfold jsToFixed
  rw [if_neg hq, if_neg hq]
  simp only [hn, Int.toNat_natCast]

/-- Evaluation of the fixed-decimal rendering for a negative value in terms
of the rounded scaled integer of its magnitude. -/
lemma jsToFixed_eval_neg (f : ℕ) (q : ℚ) (n : ℕ) (hq : q < 0)
    (hn : ⌊-q * 10 ^ f + 1 / 2⌋ = (n : ℤ)) :
    jsToFixed f q = "-" ++ toString (n / 10 ^ f) ++
      (if f = 0 then "" else "." ++ padZeros f (toString (n % 10 ^ f))) := by
  unfold jsToFixed
  rw [if_pos hq, if_pos hq]
  simp only [hn, Int.toNat_natCast]

/-- Five to one decimal place. -/
lemma jsToFixed_one_five : jsToFixed 1 (5 : ℚ) = "5.0" := by
  rw [jsToFixed_eval 1 5 50 (by norm_num) (by norm_num)]
  decide

/-- Zero to one decimal place. -/
lemma jsToFixed_one_zero : jsToFixed 1 (0 : ℚ) = "0.0" := by
  rw [jsToFixed_eval 1 0 0 (by norm_num) (by norm_num)]
  decide

/-- Minus 3.25 to one decimal place: the tie in the scaled magnitude 32.5
rounds up to 33, matching the pick-the-larger-integer rule of toFixed. -/
lemma jsToFixed_one_neg : jsToFixed 1 (-3.25 : ℚ) = "-3.3" := by
  rw [jsToFixed_eval_neg 1 (-3.25) 33 (by norm_num) (by norm_num)]
  decide

/-- Five to two decimal places. -/
lemma jsToFixed_two_five : jsToFixed 2 (5 : ℚ) = "5.00" := by
  rw [jsToFixed_eval 2 5 500 (by norm_num) (by norm_num)]
  decide

/-- Minus 3.25 to two decimal places. -/
lemma jsToFixed_two_neg : jsToFixed 2 (-3.25 : ℚ) = "-3.25" := by
  rw [jsToFixed_eval_neg 2 (-3.25) 325 (by norm_num) (by norm_num)]
  decide

/-! Claim theorems. -/

/-- C1: the ranking performed by renderDashboard and downloadCSV is the
stable descending sort of the input by strain index: the output is a
permutation of the input, it is sorted non-increasing by strain, and for
every strain value the rows carrying that value appear in exactly their
input order. -/
theorem c1_ranking_stable_descending_sort (rows : List Row) :
    (sortRows rows).Perm rows ∧
    (sortRows rows).Sorted (fun a b => b.strain ≤ a.strain) ∧
    ∀ v : ℚ, (sortRows rows).filter (fun r => r.strain == v) =
      rows.filter (fun r => r.strain == v) :=
  ⟨List.perm_insertionSort rankLE rows,
   List.sorted_insertionSort rankLE rows,
   fun v => filterStrain_sortRows v rows⟩

/-- C2: severity classification is total and three-way with CRISIS exactly
above 80 (strict), ELEVATED exactly on the closed band from 70 to 80, and
STABLE exactly below 70; 80 is ELEVATED, 80.01 is CRISIS, 70 is ELEVATED,
69.99 is STABLE; and the badge, the table pill, the bar color and the React
text color all induce the same partition of strain values. -/
theorem c2_severity_partition :
    (∀ s : ℚ, ((strainBadge s).label = "CRISIS" ↔ 80 < s) ∧
      ((strainBadge s).label = "ELEVATED" ↔ 70 ≤ s ∧ s ≤ 80) ∧
      ((strainBadge s).label = "STABLE" ↔ s < 70)) ∧
    (∀ s t : ℚ,
      ((strainBadge s).label = (strainBadge t).label ↔ strainPill s = strainPill t) ∧
      ((strainBadge s).label = (strainBadge t).label ↔ barColor s = barColor t) ∧
      ((strainBadge s).label = (strainBadge t).label ↔ buildBarColors [s] = buildBarColors [t]) ∧
      ((strainBadge s).label = (strainBadge t).label ↔ getStrainColor s = getStrainColor t)) ∧
    (strainBadge 80).label = "ELEVATED" ∧ (strainBadge 80.01).label = "CRISIS" ∧
    (strainBadge 70).label = "ELEVATED" ∧ (strainBadge 69.99).label = "STABLE" := by
  refine ⟨fun s => ?_, fun s t => ?_,
    by rw [strainBadge_label]; norm_num, by rw [strainBadge_label]; norm_num,
    by rw [strainBadge_label]; norm_num, by rw [strainBadge_label]; norm_num⟩
  · rw [strainBadge_label]
    split_ifs with h1 h2
    · exact ⟨iff_of_true rfl h1,
        iff_of_false (by decide) (fun hc => absurd h1 (not_lt.mpr hc.2)),
        iff_of_false (by decide) (fun hc => absurd h1 (by linarith))⟩
    · exact ⟨iff_of_false (by decide) h1,
        iff_of_true rfl ⟨h2, not_lt.mp h1⟩,
        iff_of_false (by decide) (not_lt.mpr h2)⟩
    · exact ⟨iff_of_false (by decide) h1,
        iff_of_false (by decide) (fun hc => h2 hc.1),
        iff_of_true rfl (not_le.mp h2)⟩
  · simp only [strainBadge_label, strainPill, barColor, getStrainColor, buildBarColors,
      List.map_cons, List.map_nil]
    split_ifs <;> refine ⟨?_, ?_, ?_, ?_⟩ <;> decide

/-- C3: on an empty snapshot renderDashboard derives an average of exactly
0 (the division is guarded), a crisis count of exactly 0, and the sentinel
highest row with region em-dash and strain 0; the React crisis count is
also 0 on an empty snapshot. -/
theorem c3_empty_snapshot :
    (rankedView []).average = 0 ∧
    (rankedView []).crisisCount = 0 ∧
    (rankedView []).highest.region = "—" ∧
    (rankedView []).highest.strain = 0 ∧
    statesInCrisisTS [] = 0 := by
  refine ⟨rfl, rfl, rfl, rfl, rfl⟩

/-- C4 counterexample: the React front end (part_000) does produce a
user-visible error state distinct from the empty state - a 404 yields the
banner text Error: HTTP error! status: 404 and null data, not an empty row
list - while app.js, which never inspects the status, returns the parsed
non-empty rows for a non-2xx response carrying a well-formed payload
instead of the empty sequence the claim requires. -/
theorem c4_error_state_counterexample :
    errorBanner (fetchMetricsTS (.response 404 (.ok { date := none, rows := [] }))) =
      some "Error: HTTP error! status: 404" ∧
    (fetchMetricsTS (.response 404 (.ok { date := none, rows := [] }))).data = none ∧
    errorBanner (fetchMetricsTS (.response 200 (.ok { date := none, rows := [] }))) = none ∧
    fetchMetricsJS (.response 500 (.ok ⟨none, [⟨"X", 85, some 3⟩]⟩)) = [⟨"X", 85, 3⟩] := by
  refine ⟨by decide, by decide, by decide, by decide⟩

/-- C4 amended: the app.js fetchMetrics never propagates an error: it yields
the empty row list on transport failure or on a body without an extractable
rows array, and yields the normalized rows of any well-formed payload
regardless of HTTP status (the status is never checked); the React
fetchMetrics in part_000 also propagates no exception, but surfaces
failures as a stored error message - rendered as a visible Error banner -
with data set to null rather than an empty row list. -/
theorem c4_fetch_fail_soft :
    (∀ msg, fetchMetricsJS (.transportError msg) = []) ∧
    (∀ status msg, fetchMetricsJS (.response status (.malformed msg)) = []) ∧
    (∀ status resp, fetchMetricsJS (.response status (.ok resp)) = resp.rows.map normalizeRow) ∧
    (∀ msg, fetchMetricsTS (.transportError msg) =
      { data := none, error := some msg, loading := false }) ∧
    (∀ status body, fetchMetricsTS (.response (300 + status) body) =
      ⟨none, some ("HTTP error! status: " ++ toString (300 + status)), false⟩) ∧
    (∀ msg, errorBanner { data := none, error := some msg, loading := false } =
      some ("Error: " ++ msg)) := by
  refine ⟨fun msg => rfl, fun status msg => rfl, fun status resp => rfl, fun msg => rfl,
    fun status body => ?_, fun msg => rfl⟩
  have hok : respOk (300 + status) = false := by
    simp only [respOk]
    simp only [Bool.and_eq_false_iff, decide_eq_false_iff_not, not_le]
    right
    omega
  simp [fetchMetricsTS, hok]

/-- C5: the recolor path refreshCharts changes only the style-bearing
fields: data, labels and the per-bar severity backgrounds are untouched,
whether a chart exists or not; recoloring twice with different themes still
leaves the data identical; with no chart instance the call is the identity;
and on an existing bar chart the tick, grid and border colors are set to
the colors of the active theme. -/
theorem c5_recolor_frame (d1 d2 : Bool) (st : RendererState) :
    ((refreshCharts d1 st).bar.map fun c => c.data) = (st.bar.map fun c => c.data) ∧
    ((refreshCharts d1 st).bar.map fun c => c.labels) = (st.bar.map fun c => c.labels) ∧
    ((refreshCharts d1 st).bar.map fun c => c.backgroundColor) =
      (st.bar.map fun c => c.backgroundColor) ∧
    ((refreshCharts d1 st).line.map fun c => c.data) = (st.line.map fun c => c.data) ∧
    ((refreshCharts d1 st).line.map fun c => c.labels) = (st.line.map fun c => c.labels) ∧
    (refreshCharts d1 st).bar.isSome = st.bar.isSome ∧
    (refreshCharts d1 st).line.isSome = st.line.isSome ∧
    ((refreshCharts d1 st).bar.map fun c => c.xTicksColor) =
      (st.bar.map fun _ => (chartThemeColors d1).ticks) ∧
    ((refreshCharts d1 st).bar.map fun c => c.yTicksColor) =
      (st.bar.map fun _ => (chartThemeColors d1).ticks) ∧
    ((refreshCharts d1 st).bar.map fun c => c.yGridColor) =
      (st.bar.map fun _ => (chartThemeColors d1).grid) ∧
    ((refreshCharts d1 st).bar.map fun c => c.borderColor) =
      (st.bar.map fun _ => (chartThemeColors d1).border) ∧
    ((refreshCharts d2 (refreshCharts d1 st)).bar.map fun c => c.data) =
      (st.bar.map fun c => c.data) ∧
    ((refreshCharts d2 (refreshCharts d1 st)).line.map fun c => c.data) =
      (st.line.map fun c => c.data) ∧
    refreshCharts d1 { bar := none, line := none } = { bar := none, line := none } := by
  obtain ⟨bar, line⟩ := st
  cases bar <;> cases line <;>
    simp [refreshCharts, refreshBar, refreshLine, Option.map, Option.isNone, Option.isSome]

/-- C6 counterexample: on the rows of the claim, toCSV quotes every region,
so the third line is the quoted form of C, not the bare C,50,-1 the claim
states. -/
theorem c6_csv_example_counterexample :
    toCSV [{ region := "A\"B", strain := 91, delta := 2 },
           { region := "C", strain := 50, delta := -1 }] ≠
      "Region,Strain Index,Delta Strain\n\"A\"\"B\",91,2\nC,50,-1" := by
  decide

/-- C6 amended: serializing the two rows of the claim yields exactly the
header line, then the quote-escaped first row, then the second row with its
region also wrapped in quotes: the third line is quoted C followed by
50,-1. -/
theorem c6_csv_example :
    toCSV [{ region := "A\"B", strain := 91, delta := 2 },
           { region := "C", strain := 50, delta := -1 }] =
      "Region,Strain Index,Delta Strain\n\"A\"\"B\",91,2\n\"C\",50,-1" := by
  decide

/-- C7: for every row sequence, toCSV emits the fixed three-column header
followed by one line per row in input order, where each line is the
double-quoted region with embedded quotes doubled, then the strain and the
delta rendered as numbers with nothing added; and the quote-doubling is
lossless: undoing it recovers the region exactly. -/
theorem c7_csv_shape (rows : List Row) :
    toCSV rows = String.intercalate "\n" ("Region,Strain Index,Delta Strain" ::
      rows.map fun r =>
        "\"" ++ escapeQuotes r.region ++ "\"" ++ "," ++ jsNumRepr r.strain ++ "," ++
          jsNumRepr r.delta) ∧
    ∀ s : String, unescapeChars (escapeQuotes s).data = s.data := by
  constructor
  · show String.intercalate "\n"
      (rows.foldl (fun acc r => acc ++ [csvLine r])
        [String.intercalate "," ["Region", "Strain Index", "Delta Strain"]]) = _
    rw [csv_foldl_push]
    rfl
  · intro s
    exact unescape_escape s.data

/-- C8 counterexample: the formatDelta of the React front end renders deltas
with two decimal places, so the delta display text of -3.25 there is
-3.25, not the one-decimal -3.3 the claim asserts for every delta display
surface. -/
theorem c8_two_decimals_counterexample :
    formatDelta (some (-3.25)) = "-3.25" ∧ formatDelta (some (-3.25)) ≠ "-3.3" := by
  have h : formatDelta (some (-3.25)) = "-3.25" := by
    simp only [formatDelta]
    rw [if_neg (by norm_num : ¬ (0 : ℚ) < -3.25), jsToFixed_two_neg]
    decide
  exact ⟨h, by rw [h]; decide⟩

/-- C8 amended: the app.js deltaCell renders the delta to one decimal place
with an explicit plus sign exactly for strictly positive values (5 gives
+5.0, -3.25 gives -3.3, 0 gives 0.0) and rose/emerald/slate classes exactly
for positive/negative/zero deltas; the React formatDelta applies the same
sign rule but renders two decimal places (and a dash for a missing delta). -/
theorem c8_delta_format :
    (deltaCell 5).text = "+5.0" ∧
    deltaCell (-3.25) = { text := "-3.3", cls := "text-emerald-600 dark:text-emerald-300" } ∧
    deltaCell 0 = { text := "0.0", cls := "text-slate-600 dark:text-slate-300" } ∧
    (∀ q : ℚ, (deltaCell q).text = "+" ++ jsToFixed 1 q ↔ 0 < q) ∧
    (∀ q : ℚ, (deltaCell q).cls = "text-rose-600 dark:text-rose-300" ↔ 0 < q) ∧
    (∀ q : ℚ, (deltaCell q).cls = "text-emerald-600 dark:text-emerald-300" ↔ q < 0) ∧
    (∀ q : ℚ, (deltaCell q).cls = "text-slate-600 dark:text-slate-300" ↔ q = 0) ∧
    formatDelta (some 5) = "+5.00" ∧ formatDelta (some (-3.25)) = "-3.25" ∧
    formatDelta none = "-" := by
  have hc1 : (deltaCell 5).text = "+5.0" := by
    simp only [deltaCell]
    rw [if_pos (by norm_num : (0 : ℚ) < 5), jsToFixed_one_five]
    decide
  have hc2 : deltaCell (-3.25) =
      { text := "-3.3", cls := "text-emerald-600 dark:text-emerald-300" } := by
    have hneg : (-3.25 : ℚ) < 0 := by norm_num
    have hnpos : ¬ (0 : ℚ) < -3.25 := by norm_num
    simp only [deltaCell]
    rw [if_neg hnpos, if_neg hnpos, if_pos hneg, jsToFixed_one_neg]
    decide
  have hc3 : deltaCell 0 =
      { text := "0.0", cls := "text-slate-600 dark:text-slate-300" } := by
    have h0 : ¬ (0 : ℚ) < 0 := lt_irrefl 0
    simp only [deltaCell]
    rw [if_neg h0, if_neg h0, if_neg h0, jsToFixed_one_zero]
    decide
  have hf1 : formatDelta (some 5) = "+5.00" := by
    simp only [formatDelta]
    rw [if_pos (by norm_num : (0 : ℚ) < 5), jsToFixed_two_five]
    decide
  have hf2 : formatDelta (some (-3.25)) = "-3.25" := by
    simp only [formatDelta]
    rw [if_neg (by norm_num : ¬ (0 : ℚ) < -3.25), jsToFixed_two_neg]
    decide
  refine ⟨hc1, hc2, hc3, fun q => ?_, fun q => ?_, fun q => ?_, fun q => ?_, hf1, hf2, rfl⟩
  · constructor
    · intro h
      by_cases hq : 0 < q
      · exact hq
      · exfalso
        have htxt : (deltaCell q).text = jsToFixed 1 q := by
          simp [deltaCell, hq]
        rw [htxt] at h
        have hlen := congrArg String.length h
        have hplus : ("+" : String).length = 1 := rfl
        rw [String.length_append, hplus] at hlen
        omega
    · intro hq
      simp [deltaCell, hq]
  · unfold deltaCell
    split_ifs with h1 h2 <;> simp only []
    · simpa using h1
    · constructor
      · intro h; exact absurd h (by decide)
      · intro h; exact absurd h h1
    · constructor
      · intro h; exact absurd h (by decide)
      · intro h; exact absurd h h1
  · unfold deltaCell
    split_ifs with h1 h2 <;> simp only []
    · constructor
      · intro h; exact absurd h (by decide)
      · intro h; linarith
    · simpa using h2
    · constructor
      · intro h; exact absurd h (by decide)
      · intro h; exact absurd h h2
  · unfold deltaCell
    split_ifs with h1 h2 <;> simp only []
    · constructor
      · intro h; exact absurd h (by decide)
      · intro h; exact absurd (h ▸ h1) (lt_irrefl 0)
    · constructor
      · intro h; exact absurd h (by decide)
      · intro h; exact absurd (h ▸ h2) (lt_irrefl 0)
    · simpa using le_antisymm (not_lt.mp h1) (not_lt.mp h2)

/-- C9: on any non-empty row sequence the two front ends compute the same
KPIs: the first element of the app.js stable descending sort is exactly the
row (hence the region) the React running-maximum reduce selects, and both
compute the same mean strain and the same strict crisis count. -/
theorem c9_kpis_agree (r : Row) (rs : List Row) :
    highestStrainTS (r :: rs) = some (rankedView (r :: rs)).highest ∧
    averageStrainTS (r :: rs) = some (rankedView (r :: rs)).average ∧
    statesInCrisisTS (r :: rs) = (rankedView (r :: rs)).crisisCount := by
  have hlen : (sortRows (r :: rs)).length = rs.length + 1 := by
    simp [sortRows, List.orderedInsert_length, List.length_insertionSort]
  refine ⟨?_, ?_, ?_⟩
  · have hself : maxStep r r = r := by simp [maxStep]
    have hfold : (r :: rs).foldl maxStep r = rs.foldl maxStep r := by
      simp only [List.foldl_cons, hself]
    have hhead := head_sortRows rs r
    simp only [highestStrainTS, hfold, rankedView]
    rw [hhead]
    rfl
  · simp only [averageStrainTS, rankedView]
    rw [hlen, sumStrain_sortRows]
    simp
  · simp only [statesInCrisisTS, rankedView]
    rw [crisis_sortRows]

/-- C10: the ranking step copies before sorting: running
rows.slice().sort((a, b) => b.strain - a.strain) against a store in which
the fetched rows live at some reference leaves the contents of that reference
exactly as fetched, element for element and in order, while the returned
fresh reference (distinct from the original) holds the descending sort,
a permutation of the fetched rows. -/
theorem c10_ranking_no_mutation (pre post : List (List Row)) (v : List Row) :
    (rankStep ⟨pre ++ v :: post⟩ pre.length).snd.lookup pre.length = v ∧
    (rankStep ⟨pre ++ v :: post⟩ pre.length).snd.lookup
      (rankStep ⟨pre ++ v :: post⟩ pre.length).fst = sortRows v ∧
    (rankStep ⟨pre ++ v :: post⟩ pre.length).fst ≠ pre.length ∧
    (sortRows v).Perm v := by
  have hlook : Store.lookup ⟨pre ++ v :: post⟩ pre.length = v := by
    simp only [Store.lookup]
    rw [List.getElem?_append_right (le_refl pre.length)]
    simp
  have hmid : Store.lookup ⟨(pre ++ v :: post) ++ [v]⟩ (pre ++ v :: post).length = v := by
    simp only [Store.lookup]
    rw [List.getElem?_concat_length]
    rfl
  have harr : (rankStep ⟨pre ++ v :: post⟩ pre.length).snd.arrays =
      (pre ++ v :: post) ++ [sortRows v] := by
    simp only [rankStep, jsSlice, jsSortDescInPlace, Store.alloc, Store.update, hlook]
    rw [hmid]
    exact set_concat v (sortRows v) (pre ++ v :: post)
  have hfst : (rankStep ⟨pre ++ v :: post⟩ pre.length).fst = (pre ++ v :: post).length := rfl
  have hlt : pre.length < (pre ++ v :: post).length := by
    simp only [List.length_append, List.length_cons]
    omega
  refine ⟨?_, ?_, ?_, List.perm_insertionSort rankLE v⟩
  · simp only [Store.lookup, harr]
    rw [List.getElem?_append, if_pos hlt, List.getElem?_append_right (le_refl pre.length)]
    simp
  · simp only [Store.lookup, harr, hfst]
    rw [List.getElem?_concat_length]
    rfl
  · rw [hfst]
    simp only [List.length_append, List.length_cons]
    omega

end HospitalStrain
